import Mathlib

/-!
Shallow embedding of `src/server/socket.c` from the dime2 repository: the
DiME framing socket (push/pop of length-prefixed frames through ring-backed
inbound/outbound buffers, partial send/receive, and the TLS-upgrade state
transition).  Bytes are modelled as `Nat` (values below 256 on the wire),
machine-word truncation is explicit (`% 2 ^ 32` where the C code narrows a
`size_t` to a `uint32_t`), and fallible C functions return an `Int` status
(-1 on failure) together with the updated state, exactly as the C code
returns `ssize_t` while mutating the socket in place.

External collaborators (the jansson structured-data codec, the TLS provider
and the OS transport) are modelled at their interface boundary: the codec is
a parameter with `dumps`/`loadb` functions, and each transport interaction
takes the transport's reply as an explicit oracle argument.
-/

namespace Dime2

/-- Modelled from the spec: `ringbuffer.c` / `ringbuffer.h` are not among the
sources; the spec (sections 2 and 6) describes the ring buffer as a
fixed-capacity circular byte store with `append(bytes) -> count written |
failure-if-full`, `peek(max_len) -> bytes without removing`, `discard(count)`
and `length()`.  The circular layout is an implementation detail invisible
through this interface, so the state is the capacity plus the buffered byte
sequence. -/
structure dime_ringbuffer_t where
  cap : Nat
  data : List Nat
  deriving DecidableEq, Repr

/-- Modelled from the spec: `length()` of the ring buffer. -/
def dime_ringbuffer_len (rb : dime_ringbuffer_t) : Nat :=
  rb.data.length

/-- Modelled from the spec: `append(bytes) -> count written |
failure-if-full`.  The append is all-or-nothing, bounded by the remaining
capacity: if the bytes fit they are appended and their count is returned,
otherwise nothing is written and the failure is reported as a negative
count (which is how `socket.c` tests the result, e.g. `... < 0` at the
receive path and `... < 12` at the push path). -/
def dime_ringbuffer_write (rb : dime_ringbuffer_t) (bs : List Nat) :
    Int × dime_ringbuffer_t :=
  if dime_ringbuffer_len rb + bs.length ≤ rb.cap then
    (Int.ofNat bs.length, { rb with data := rb.data ++ bs })
  else
    (-1, rb)

/-- Modelled from the spec: `peek(max_len) -> bytes without removing`; the
count of bytes peeked is the length of the returned list (at most
`max_len`, fewer when the buffer holds fewer). -/
def dime_ringbuffer_peek (rb : dime_ringbuffer_t) (n : Nat) : List Nat :=
  rb.data.take n

/-- Modelled from the spec: `discard(count)` removes `count` bytes from the
front of the buffer (all buffered bytes when fewer are buffered). -/
def dime_ringbuffer_discard (rb : dime_ringbuffer_t) (n : Nat) :
    dime_ringbuffer_t :=
  { rb with data := rb.data.drop n }

/-- The socket state of `socket.h`: file descriptor, inbound ring buffer,
outbound ring buffer, and the nullable TLS session handle (`tls = true`
means a session is attached, i.e. `sock->tls != NULL`). -/
structure dime_socket_t where
  fd : Int
  rbuf : dime_ringbuffer_t
  wbuf : dime_ringbuffer_t
  tls : Bool
  deriving DecidableEq, Repr

/-- `dime_socket_init`: fresh socket with empty buffers and no TLS session.
The ring-buffer capacities are parameters because `ringbuffer.c` (which
fixes them at construction, per the spec) is not among the sources. -/
def dime_socket_init (fd : Int) (rcap wcap : Nat) : dime_socket_t :=
  { fd := fd
    rbuf := { cap := rcap, data := [] }
    wbuf := { cap := wcap, data := [] }
    tls := false }

/-- `dime_socket_sendlen`: bytes buffered in the outbound buffer. -/
def dime_socket_sendlen (sock : dime_socket_t) : Nat :=
  dime_ringbuffer_len sock.wbuf

/-- `dime_socket_recvlen`: bytes buffered in the inbound buffer. -/
def dime_socket_recvlen (sock : dime_socket_t) : Nat :=
  dime_ringbuffer_len sock.rbuf

/-- The constant `SENDBUFLEN` of `socket.c`. -/
def SENDBUFLEN : Nat := 200000000

/-- The constant `RECVBUFLEN` of `socket.c`. -/
def RECVBUFLEN : Nat := 200000000

/-- The 4-byte magic constant `"DiME"` (ASCII `D i M E`). -/
def DIME_MAGIC : List Nat := [68, 105, 77, 69]

/-- `htonl` applied to a 32-bit length: the four bytes of `n` in network
(big-endian) order.  `socket.c` narrows the `size_t` lengths to `uint32_t`
header fields, hence the explicit `% 2 ^ 32` at each call site. -/
def htonl32 (n : Nat) : List Nat :=
  [n / 2 ^ 24 % 256, n / 2 ^ 16 % 256, n / 2 ^ 8 % 256, n % 256]

/-- `ntohl` reading a 4-byte big-endian field. -/
def ntohl32 (bs : List Nat) : Nat :=
  match bs with
  | [b0, b1, b2, b3] => b0 * 2 ^ 24 + b1 * 2 ^ 16 + b2 * 2 ^ 8 + b3
  | _ => 0

/-- The 12-byte `struct dime_header` as laid out on the wire: magic, then
the structured-segment length and the binary-segment length, both as 4-byte
big-endian values (truncated to 32 bits as in the C code). -/
def frameHeader (jl bl : Nat) : List Nat :=
  DIME_MAGIC ++ htonl32 (jl % 2 ^ 32) ++ htonl32 (bl % 2 ^ 32)

/-- The full serialized frame for a rendered structured segment `s` and a
binary segment `b`: header, then the two segments. -/
def frameBytes (s b : List Nat) : List Nat :=
  frameHeader s.length b.length ++ s ++ b

/-- The external structured-data codec (jansson) at its interface boundary:
`dumps` renders a value to its compact textual encoding (`json_dumps` with
`JSON_COMPACT`, `NULL` on failure) and `loadb` parses a byte span back to a
value (`json_loadb`, `NULL` on failure). -/
structure JsonCodec (V : Type) where
  dumps : V → Option (List Nat)
  loadb : List Nat → Option V

/-- `dime_socket_push_str`: build the 12-byte header, then append header,
rendered structured segment and binary segment to the outbound ring buffer
in three consecutive writes; if any write reports fewer bytes than
requested the function returns -1 (leaving whatever the successful earlier
writes appended), otherwise it returns the serialized size
`12 + jsondata_len + bindata_len`. -/
def dime_socket_push_str (sock : dime_socket_t) (jsonstr bindata : List Nat) :
    Int × dime_socket_t :=
  let jl := jsonstr.length
  let hdr := frameHeader jl bindata.length
  let w1 := dime_ringbuffer_write sock.wbuf hdr
  if w1.1 < 12 then
    (-1, { sock with wbuf := w1.2 })
  else
    let w2 := dime_ringbuffer_write w1.2 jsonstr
    if w2.1 < Int.ofNat jl then
      (-1, { sock with wbuf := w2.2 })
    else
      let w3 := dime_ringbuffer_write w2.2 bindata
      if w3.1 < Int.ofNat bindata.length then
        (-1, { sock with wbuf := w3.2 })
      else
        (Int.ofNat (12 + jl + bindata.length), { sock with wbuf := w3.2 })

/-- `dime_socket_push`: render the structured value with the external codec
(`json_dumps`, -1 when rendering fails) and delegate to
`dime_socket_push_str`. -/
def dime_socket_push {V : Type} (codec : JsonCodec V) (sock : dime_socket_t)
    (jsondata : V) (bindata : List Nat) : Int × dime_socket_t :=
  match codec.dumps jsondata with
  | none => (-1, sock)
  | some jsonstr => dime_socket_push_str sock jsonstr bindata

/-- `dime_socket_pop`: peek 12 header bytes (fewer available means report 0,
"no complete message yet"); check the magic (mismatch is -1); read the two
big-endian lengths and peek the whole `12 + jsondata_len + bindata_len`
frame (fewer available means report 0); parse the structured segment with
the external codec (`json_loadb`, failure is -1 with nothing consumed); on
success copy out the binary segment, discard exactly the frame from the
inbound buffer and return the frame size.  The `malloc` calls of the C code
are modelled as succeeding. -/
def dime_socket_pop {V : Type} (codec : JsonCodec V) (sock : dime_socket_t) :
    Int × dime_socket_t × Option (V × List Nat) :=
  let hdrPeek := dime_ringbuffer_peek sock.rbuf 12
  if hdrPeek.length = 12 then
    if hdrPeek.take 4 ≠ DIME_MAGIC then
      (-1, sock, none)
    else
      let jl := ntohl32 ((hdrPeek.drop 4).take 4)
      let bl := ntohl32 ((hdrPeek.drop 8).take 4)
      let msgsiz := 12 + jl + bl
      let buf := dime_ringbuffer_peek sock.rbuf msgsiz
      if buf.length = msgsiz then
        match codec.loadb ((buf.drop 12).take jl) with
        | none => (-1, sock, none)
        | some v =>
            (Int.ofNat msgsiz,
             { sock with rbuf := dime_ringbuffer_discard sock.rbuf msgsiz },
             some (v, (buf.drop (12 + jl)).take bl))
      else
        (0, sock, none)
  else
    (0, sock, none)

/-- `dime_socket_sendpartial`: peek up to `SENDBUFLEN` bytes from the
outbound buffer and offer them to the transport (`SSL_write` when a TLS
session is attached, `send` otherwise).  The transport's reply `nsent` is
an oracle argument; a negative reply is returned as -1 with nothing
discarded, otherwise exactly `nsent` bytes are discarded from the front of
the outbound buffer and `nsent` is returned. -/
def dime_socket_sendpartial (sock : dime_socket_t) (nsent : Int) :
    Int × dime_socket_t :=
  if nsent < 0 then
    (-1, sock)
  else
    (nsent, { sock with wbuf := dime_ringbuffer_discard sock.wbuf nsent.toNat })

/-- `dime_socket_recvpartial`: ask the transport for up to `RECVBUFLEN`
bytes (`SSL_read` when TLS is attached, `recv` otherwise).  The transport's
reply is an oracle argument: `none` for a negative return (reported as -1
with nothing appended), `some bs` for a successful read of the bytes `bs`,
which are appended to the inbound buffer; a failing append is reported as
-1 (with the buffer as the append left it), otherwise the byte count
received is returned. -/
def dime_socket_recvpartial (sock : dime_socket_t) (reply : Option (List Nat)) :
    Int × dime_socket_t :=
  match reply with
  | none => (-1, sock)
  | some bs =>
      let w := dime_ringbuffer_write sock.rbuf bs
      if w.1 < 0 then
        (-1, { sock with rbuf := w.2 })
      else
        (Int.ofNat bs.length, { sock with rbuf := w.2 })

/-- The `O_NONBLOCK` file-status flag (Linux value 0o4000). -/
def O_NONBLOCK : Nat := 2048

/-- `flags & ~O_NONBLOCK` on a 32-bit `int` flag word. -/
def clearNonblock (flags : Nat) : Nat :=
  flags &&& (2 ^ 32 - 1 - O_NONBLOCK)

/-- Oracle replies of the external calls made during the TLS upgrade: the
transport replies for the successive `dime_socket_sendpartial` calls of the
outbound-drain loop, and the success of `SSL_new`, `SSL_set_fd` and
`SSL_accept`. -/
structure TlsEnv where
  drain : List Int
  sslNewOk : Bool
  setFdOk : Bool
  acceptOk : Bool

/-- Outcome of the TLS upgrade: returned 0, returned -1, aborted on the
`assert` of a non-empty inbound buffer, or the drain loop outran the
supplied oracle replies (the C loop would still be spinning). -/
inductive TlsOutcome where
  | ok
  | err
  | assertAbort
  | drainSpin
  deriving DecidableEq, Repr

/-- State observable after the TLS upgrade: the socket, the file-status
flag word of the descriptor, and whether `SSL_accept` (the handshake) was
ever invoked. -/
structure TlsState where
  sock : dime_socket_t
  flags : Nat
  handshakeTried : Bool
  deriving DecidableEq, Repr

/-- Result of the outbound-drain loop of `dime_socket_init_tls`. -/
inductive DrainResult where
  | drained (sock : dime_socket_t)
  | failed (sock : dime_socket_t)
  | outOfOracle (sock : dime_socket_t)
  deriving DecidableEq, Repr

/-- The `while (dime_ringbuffer_len(&sock->wbuf) > 0)` drain loop of
`dime_socket_init_tls`, stepped against the list of transport replies. -/
def drainOut (sock : dime_socket_t) (oracle : List Int) : DrainResult :=
  if dime_socket_sendlen sock = 0 then
    .drained sock
  else
    match oracle with
    | [] => .outOfOracle sock
    | r :: rest =>
        let step := dime_socket_sendpartial sock r
        if step.1 < 0 then
          .failed step.2
        else
          drainOut step.2 rest

/-- `dime_socket_init_tls`: read the descriptor's flag word (`flags`, an
oracle input standing for the `fcntl(F_GETFL)` reply), clear `O_NONBLOCK`
if it was set, `assert` that the inbound buffer is empty, drain the
outbound buffer, create and bind the TLS session and run the server-side
handshake.  The flag-restoring `fcntl(F_SETFL)` calls of the C code are
modelled as succeeding, and each failure path restores (or fails to
restore) the flag word exactly where the C code does: the drain,
`SSL_set_fd` and `SSL_accept` failure paths restore the original flags
when they had been changed, while the `SSL_new` failure path returns
without any restore. -/
def dime_socket_init_tls (sock : dime_socket_t) (flags : Nat) (env : TlsEnv) :
    TlsOutcome × TlsState :=
  let changed := clearNonblock flags ≠ flags
  let flags1 := if changed then clearNonblock flags else flags
  if dime_ringbuffer_len sock.rbuf ≠ 0 then
    (.assertAbort, { sock := sock, flags := flags1, handshakeTried := false })
  else
    match drainOut sock env.drain with
    | .outOfOracle s =>
        (.drainSpin, { sock := s, flags := flags1, handshakeTried := false })
    | .failed s =>
        (.err,
         { sock := s, flags := if changed then flags else flags1,
           handshakeTried := false })
    | .drained s =>
        if !env.sslNewOk then
          (.err, { sock := s, flags := flags1, handshakeTried := false })
        else if !env.setFdOk then
          (.err,
           { sock := s, flags := if changed then flags else flags1,
             handshakeTried := false })
        else if !env.acceptOk then
          (.err,
           { sock := s, flags := if changed then flags else flags1,
             handshakeTried := true })
        else
          (.ok,
           { sock := { s with tls := true },
             flags := if changed then flags else flags1,
             handshakeTried := true })

/-- A sequence of `dime_socket_push` calls; `none` when one of them fails,
otherwise the sum of the returned serialized sizes and the final socket. -/
def pushRun {V : Type} (codec : JsonCodec V) :
    dime_socket_t → List (V × List Nat) → Option (Nat × dime_socket_t)
  | sock, [] => some (0, sock)
  | sock, (v, b) :: rest =>
      let step := dime_socket_push codec sock v b
      if step.1 < 0 then
        none
      else
        match pushRun codec step.2 rest with
        | some (total, s) => some (step.1.toNat + total, s)
        | none => none

/-- A sequence of `dime_socket_sendpartial` calls against a fragmentation
oracle: each entry is the byte count the transport accepts for that call,
required to be at most the count offered (at most
`min (buffered bytes) SENDBUFLEN`, as the OS `send` contract guarantees);
`none` when an entry exceeds the offered count, otherwise the sum of the
returned byte counts and the final socket. -/
def sendRun : dime_socket_t → List Nat → Option (Nat × dime_socket_t)
  | sock, [] => some (0, sock)
  | sock, a :: rest =>
      if a ≤ min (dime_socket_sendlen sock) SENDBUFLEN then
        let step := dime_socket_sendpartial sock (Int.ofNat a)
        match sendRun step.2 rest with
        | some (total, s) => some (step.1.toNat + total, s)
        | none => none
      else
        none

/-- The external codec instantiated for the concrete scenario of the spec:
the structured value is the empty JSON object `\x7b\x7d`, rendered compactly
to the two bytes `0x7b 0x7d` and parsed back from exactly those bytes. -/
def emptyObjCodec : JsonCodec Unit :=
  { dumps := fun _ => some [123, 125]
    loadb := fun s => if s = [123, 125] then some () else none }

theorem frameHeader_length (jl bl : Nat) : (frameHeader jl bl).length = 12 := rfl

theorem frameBytes_length (s b : List Nat) :
    (frameBytes s b).length = 12 + s.length + b.length := by
  simp [frameBytes, frameHeader, htonl32, DIME_MAGIC]
  omega

theorem ntohl32_htonl32 (n : Nat) (h : n < 2 ^ 32) : ntohl32 (htonl32 n) = n := by
  simp only [htonl32, ntohl32]
  omega

/-- Full case analysis of `dime_socket_push_str`: the three consecutive
ring-buffer writes succeed or fail according to the remaining outbound
capacity, and each successful write's bytes stay buffered even when a later
write fails. -/
theorem push_str_spec (sock : dime_socket_t) (s b : List Nat) :
    dime_socket_push_str sock s b =
      if dime_socket_sendlen sock + 12 ≤ sock.wbuf.cap then
        if dime_socket_sendlen sock + 12 + s.length ≤ sock.wbuf.cap then
          if dime_socket_sendlen sock + 12 + s.length + b.length ≤ sock.wbuf.cap then
            (Int.ofNat (12 + s.length + b.length),
             { sock with wbuf := { sock.wbuf with
                 data := sock.wbuf.data ++ frameHeader s.length b.length ++ s ++ b } })
          else
            (-1, { sock with wbuf := { sock.wbuf with
                 data := sock.wbuf.data ++ frameHeader s.length b.length ++ s } })
        else
          (-1, { sock with wbuf := { sock.wbuf with
               data := sock.wbuf.data ++ frameHeader s.length b.length } })
      else
        (-1, sock) := by
  simp only [dime_socket_push_str, dime_ringbuffer_write, dime_ringbuffer_len,
    dime_socket_sendlen, frameHeader_length, List.length_append]
  split_ifs <;> first
    | rfl
    | (exfalso; simp only [frameHeader_length, List.length_append,
         Int.ofNat_eq_coe] at *; omega)

/-- Claim C2 (counterexample): with 13 bytes of outbound capacity, pushing
the frame for `\x7b\x7d` and `"AB"` (serialized size 16) fails, yet the
12-byte header remains buffered: the outbound buffer content is not what it
was before the call. -/
theorem push_failure_leaves_header_buffered :
    ( dime_socket_push_str
        { fd := 1, rbuf := { cap := 16, data := [] },
          wbuf := { cap := 13, data := [] }, tls := false } [123, 125] [65, 66]).1 = -1 ∧
    ( dime_socket_push_str
        { fd := 1, rbuf := { cap := 16, data := [] },
          wbuf := { cap := 13, data := [] }, tls := false } [123, 125] [65, 66]).2.wbuf.data
      = [68, 105, 77, 69, 0, 0, 0, 2, 0, 0, 0, 2] ∧
    ([68, 105, 77, 69, 0, 0, 0, 2, 0, 0, 0, 2] : List Nat) ≠ [] := by
  decide

/-- Claim C2 (amended): when the serialized message exceeds the outbound
buffer's remaining capacity the push returns failure, but the buffered
content is unchanged only when even the 12-byte header does not fit;
otherwise the segments written before the failing one (the header, and
possibly the structured segment) remain buffered — there is no rollback. -/
theorem push_insufficient_capacity (sock : dime_socket_t) (s b : List Nat)
    (h : sock.wbuf.cap < dime_socket_sendlen sock + (12 + s.length + b.length)) :
    ( dime_socket_push_str sock s b).1 = -1 ∧
    ( dime_socket_push_str sock s b).2.wbuf.data =
      (if dime_socket_sendlen sock + 12 ≤ sock.wbuf.cap then
         if dime_socket_sendlen sock + 12 + s.length ≤ sock.wbuf.cap then
           sock.wbuf.data ++ frameHeader s.length b.length ++ s
         else
           sock.wbuf.data ++ frameHeader s.length b.length
       else sock.wbuf.data) := by
  rw [push_str_spec]
  split_ifs <;> first | (exfalso; omega) | simp

/-- Claim C2 (witness for the amended statement). -/
theorem push_insufficient_capacity_witness :
    (13 : Nat) < 0 + (12 + 2 + 2) ∧
    ( dime_socket_push_str
        { fd := 1, rbuf := { cap := 16, data := [] },
          wbuf := { cap := 13, data := [] }, tls := false } [123, 125] [65, 66]).1 = -1 :=
  ⟨by decide,
   (push_insufficient_capacity
      { fd := 1, rbuf := { cap := 16, data := [] },
        wbuf := { cap := 13, data := [] }, tls := false } [123, 125] [65, 66]
      (by decide)).1⟩

/-- Claim C9: a negative transport reply makes `dime_socket_sendpartial`
return -1 with the outbound buffer (indeed the whole socket state)
untouched. -/
theorem sendpartial_error_preserves_outbuf (sock : dime_socket_t) (nsent : Int)
    (h : nsent < 0) :
    dime_socket_sendpartial sock nsent = (-1, sock) := by
  simp [ dime_socket_sendpartial, h]

/-- Claim C9 (witness). -/
theorem sendpartial_error_preserves_outbuf_witness :
    ((-1 : Int) < 0) ∧
    dime_socket_sendpartial (dime_socket_init 5 8 8) (-1) = (-1, dime_socket_init 5 8 8) :=
  ⟨by decide, sendpartial_error_preserves_outbuf (dime_socket_init 5 8 8) (-1) (by decide)⟩

/-- Claim C10: a successful partial receive of byte sequence `bs` (at most
`RECVBUFLEN` bytes, as `recv`/`SSL_read` guarantee) that returns a
nonnegative count returns exactly `bs.length` and appends exactly `bs` to
the inbound buffer; a transport error appends nothing and returns -1. -/
theorem recvpartial_appends_exactly (sock : dime_socket_t) (bs : List Nat)
    (_hlen : bs.length ≤ RECVBUFLEN) :
    (0 ≤ ( dime_socket_recvpartial sock (some bs)).1 →
       ( dime_socket_recvpartial sock (some bs)).1 = Int.ofNat bs.length ∧
       ( dime_socket_recvpartial sock (some bs)).2.rbuf.data = sock.rbuf.data ++ bs) ∧
    dime_socket_recvpartial sock none = (-1, sock) := by
  refine ⟨fun hpos => ?_, rfl⟩
  by_cases hfit : dime_ringbuffer_len sock.rbuf + bs.length ≤ sock.rbuf.cap
  · have hnn : ¬((bs.length : Int) < 0) := by omega
    simp [ dime_socket_recvpartial, dime_ringbuffer_write, hfit, hnn]
  · exfalso
    simp [ dime_socket_recvpartial, dime_ringbuffer_write, hfit] at hpos

/-- Claim C10 (witness). -/
theorem recvpartial_appends_exactly_witness :
    (2 : Nat) ≤ RECVBUFLEN ∧
    (0 ≤ ( dime_socket_recvpartial (dime_socket_init 4 32 32) (some [65, 66])).1 →
       ( dime_socket_recvpartial (dime_socket_init 4 32 32) (some [65, 66])).1 = Int.ofNat 2 ∧
       ( dime_socket_recvpartial (dime_socket_init 4 32 32)
           (some [65, 66])).2.rbuf.data = (dime_socket_init 4 32 32).rbuf.data ++ [65, 66]) ∧
    dime_socket_recvpartial (dime_socket_init 4 32 32) none = (-1, dime_socket_init 4 32 32) :=
  ⟨by decide, recvpartial_appends_exactly (dime_socket_init 4 32 32) [65, 66] (by decide)⟩

/-- Claim C1 (counterexample): enqueueing the empty JSON object (rendered
compactly as the two bytes `0x7b 0x7d`) with the 2-byte blob `"AB"` returns
a serialized byte count of 16 (= 12-byte header + 2 + 2), not 14 as the
claim states. -/
theorem push_empty_obj_ab_returns_sixteen_not_fourteen :
    ( dime_socket_push emptyObjCodec (dime_socket_init 3 200000000 200000000)
        () [65, 66]).1 = 16 ∧
    ( dime_socket_push emptyObjCodec (dime_socket_init 3 200000000 200000000)
        () [65, 66]).1 ≠ 14 := by
  constructor
  · rfl
  · decide

/-- Claim C1 (amended): enqueueing the empty JSON object with the binary
blob `"AB"` produces exactly 16 serialized bytes (4-byte magic `DiME`,
4-byte big-endian structured length 2, 4-byte big-endian binary length 2,
then the two structured bytes and `AB`), and the enqueue returns that
count; feeding those 16 bytes through a partial receive and then a pop
yields back the empty object and `"AB"`, consuming all 16 bytes and
leaving the inbound buffer empty. -/
theorem concrete_scenario_sixteen_byte_roundtrip :
    dime_socket_push emptyObjCodec (dime_socket_init 3 200000000 200000000) () [65, 66]
      = (16, { fd := 3, rbuf := { cap := 200000000, data := [] },
               wbuf := { cap := 200000000,
                         data := [68, 105, 77, 69, 0, 0, 0, 2, 0, 0, 0, 2,
                                  123, 125, 65, 66] },
               tls := false }) ∧
    dime_socket_recvpartial (dime_socket_init 7 200000000 200000000)
        (some [68, 105, 77, 69, 0, 0, 0, 2, 0, 0, 0, 2, 123, 125, 65, 66])
      = (16, { fd := 7, rbuf := { cap := 200000000,
                                  data := [68, 105, 77, 69, 0, 0, 0, 2, 0, 0, 0, 2,
                                           123, 125, 65, 66] },
               wbuf := { cap := 200000000, data := [] }, tls := false }) ∧
    dime_socket_pop emptyObjCodec
        { fd := 7, rbuf := { cap := 200000000,
                             data := [68, 105, 77, 69, 0, 0, 0, 2, 0, 0, 0, 2,
                                      123, 125, 65, 66] },
          wbuf := { cap := 200000000, data := [] }, tls := false }
      = (16, { fd := 7, rbuf := { cap := 200000000, data := [] },
               wbuf := { cap := 200000000, data := [] }, tls := false },
         some ((), [65, 66])) := by
  refine ⟨rfl, rfl, ?_⟩
  decide

/-- Claim C3 (counterexample): with one buffered inbound byte and a
non-blocking descriptor (flag word 2048 = `O_NONBLOCK`), the TLS upgrade
hits the `assert` and aborts rather than returning failure, and by that
point the descriptor has already been switched to blocking mode (flag word
0): the blocking mode is altered, contradicting the claim. -/
theorem init_tls_nonempty_inbuf_alters_blocking_mode :
    ( dime_socket_init_tls
        { fd := 1, rbuf := { cap := 16, data := [0] },
          wbuf := { cap := 16, data := [] }, tls := false } 2048
        { drain := [], sslNewOk := true, setFdOk := true, acceptOk := true }).1
      = TlsOutcome.assertAbort ∧
    ( dime_socket_init_tls
        { fd := 1, rbuf := { cap := 16, data := [0] },
          wbuf := { cap := 16, data := [] }, tls := false } 2048
        { drain := [], sslNewOk := true, setFdOk := true, acceptOk := true }).2.flags
      = 0 ∧
    (0 : Nat) ≠ 2048 := by
  decide

/-- Claim C3 (amended): calling the TLS upgrade with a non-empty inbound
buffer aborts on the assertion (it does not return failure) before the TLS
handshake is attempted, but only after the descriptor has already been
switched to blocking mode: the resulting flag word is the original with
`O_NONBLOCK` cleared, not the original. -/
theorem init_tls_nonempty_inbuf_assert_abort (sock : dime_socket_t) (flags : Nat)
    (env : TlsEnv) (h : dime_ringbuffer_len sock.rbuf ≠ 0) :
    dime_socket_init_tls sock flags env =
      (TlsOutcome.assertAbort,
       { sock := sock, flags := clearNonblock flags, handshakeTried := false }) := by
  by_cases hc : clearNonblock flags ≠ flags
  · simp [dime_socket_init_tls, h, hc]
  · push_neg at hc
    simp [dime_socket_init_tls, h, hc]

/-- Claim C3 (witness for the amended statement). -/
theorem init_tls_nonempty_inbuf_assert_abort_witness :
    dime_ringbuffer_len ({ cap := 16, data := [0] } : dime_ringbuffer_t) ≠ 0 ∧
    dime_socket_init_tls
        { fd := 1, rbuf := { cap := 16, data := [0] },
          wbuf := { cap := 16, data := [] }, tls := false } 2048
        { drain := [], sslNewOk := true, setFdOk := true, acceptOk := true }
      = (TlsOutcome.assertAbort,
         { sock := { fd := 1, rbuf := { cap := 16, data := [0] },
                     wbuf := { cap := 16, data := [] }, tls := false },
           flags := clearNonblock 2048, handshakeTried := false }) :=
  ⟨by decide,
   init_tls_nonempty_inbuf_assert_abort
     { fd := 1, rbuf := { cap := 16, data := [0] },
       wbuf := { cap := 16, data := [] }, tls := false } 2048
     { drain := [], sslNewOk := true, setFdOk := true, acceptOk := true }
     (by decide)⟩

/-- Claim C4: on the `SSL_new` failure path of the TLS upgrade — a failure
to create the TLS session, after the descriptor has been switched to
blocking mode — the function returns failure with the socket still in
plaintext state, but the descriptor's original non-blocking mode (flag
word 2048) is NOT restored: the flag word stays 0 (blocking).  This is the
evaluation of the model at the failing input of the claim. -/
theorem init_tls_ssl_new_failure_leaves_blocking_mode :
    dime_socket_init_tls
        { fd := 1, rbuf := { cap := 16, data := [] },
          wbuf := { cap := 16, data := [] }, tls := false } 2048
        { drain := [], sslNewOk := false, setFdOk := true, acceptOk := true }
      = (TlsOutcome.err,
         { sock := { fd := 1, rbuf := { cap := 16, data := [] },
                     wbuf := { cap := 16, data := [] }, tls := false },
           flags := 0, handshakeTried := false }) ∧
    (0 : Nat) ≠ 2048 := by
  decide

theorem frameHeader_take4 (jl bl : Nat) :
    (frameHeader jl bl).take 4 = DIME_MAGIC := rfl

theorem frameHeader_drop4_take4 (jl bl : Nat) :
    ((frameHeader jl bl).drop 4).take 4 = htonl32 (jl % 2 ^ 32) := rfl

theorem frameHeader_drop8_take4 (jl bl : Nat) :
    ((frameHeader jl bl).drop 8).take 4 = htonl32 (bl % 2 ^ 32) := rfl

theorem frameBytes_assoc (s b : List Nat) :
    frameBytes s b = frameHeader s.length b.length ++ (s ++ b) := by
  rw [frameBytes, List.append_assoc]

/-- Claim C8: any inbound buffer holding at least 12 bytes whose first four
bytes are not the magic `DiME` makes the pop report the hard failure -1 —
never 0 ("incomplete") and never a successful decode — and consume nothing
from the inbound buffer. -/
theorem pop_bad_magic_fails {V : Type} (codec : JsonCodec V) (sock : dime_socket_t)
    (h12 : 12 ≤ sock.rbuf.data.length)
    (hmagic : sock.rbuf.data.take 4 ≠ DIME_MAGIC) :
    dime_socket_pop codec sock = (-1, sock, none) := by
  have hlen : (dime_ringbuffer_peek sock.rbuf 12).length = 12 := by
    simp only [dime_ringbuffer_peek, List.length_take]
    omega
  have htake : (dime_ringbuffer_peek sock.rbuf 12).take 4 = sock.rbuf.data.take 4 := by
    simp [dime_ringbuffer_peek, List.take_take]
  simp [dime_socket_pop, hlen, htake, hmagic]

/-- Claim C8 (witness). -/
theorem pop_bad_magic_fails_witness :
    (12 : Nat) ≤ ([100, 105, 77, 69, 0, 0, 0, 0, 0, 0, 0, 0] : List Nat).length ∧
    dime_socket_pop emptyObjCodec
        { fd := 9, rbuf := { cap := 32, data := [100, 105, 77, 69, 0, 0, 0, 0, 0, 0, 0, 0] },
          wbuf := { cap := 32, data := [] }, tls := false }
      = (-1,
         { fd := 9, rbuf := { cap := 32, data := [100, 105, 77, 69, 0, 0, 0, 0, 0, 0, 0, 0] },
           wbuf := { cap := 32, data := [] }, tls := false },
         none) :=
  ⟨by decide,
   pop_bad_magic_fails emptyObjCodec
     { fd := 9, rbuf := { cap := 32, data := [100, 105, 77, 69, 0, 0, 0, 0, 0, 0, 0, 0] },
       wbuf := { cap := 32, data := [] }, tls := false }
     (by decide) (by decide)⟩

/-- Claim C7: for a valid serialized frame, an inbound buffer holding any
strict prefix of it (from 1 byte up to one byte short of the full frame)
makes the pop report 0 ("incomplete", not an error) and consume nothing:
the socket is returned unchanged, for every split point. -/
theorem pop_strict_prefix_incomplete {V : Type} (codec : JsonCodec V)
    (sock : dime_socket_t) (s b : List Nat) (k : Nat)
    (hs : s.length < 2 ^ 32) (hb : b.length < 2 ^ 32)
    (hk1 : 1 ≤ k) (hk2 : k < 12 + s.length + b.length)
    (hdata : sock.rbuf.data = (frameBytes s b).take k) :
    dime_socket_pop codec sock = (0, sock, none) := by
  have hdlen : sock.rbuf.data.length = k := by
    rw [hdata, List.length_take, frameBytes_length]
    omega
  by_cases hk12 : k < 12
  · have hne : (dime_ringbuffer_peek sock.rbuf 12).length ≠ 12 := by
      simp only [dime_ringbuffer_peek, List.length_take]
      omega
    simp [dime_socket_pop, hne]
  · push_neg at hk12
    have hpeek12 : dime_ringbuffer_peek sock.rbuf 12 = frameHeader s.length b.length := by
      rw [dime_ringbuffer_peek, hdata, List.take_take]
      have hmin : min 12 k = 12 := by omega
      rw [hmin, frameBytes_assoc, List.take_left' (frameHeader_length _ _)]
    have hjl : ntohl32 (((frameHeader s.length b.length).drop 4).take 4) = s.length := by
      rw [frameHeader_drop4_take4, Nat.mod_eq_of_lt hs]
      exact ntohl32_htonl32 _ hs
    have hbl : ntohl32 (((frameHeader s.length b.length).drop 8).take 4) = b.length := by
      rw [frameHeader_drop8_take4, Nat.mod_eq_of_lt hb]
      exact ntohl32_htonl32 _ hb
    have hbufpeek : dime_ringbuffer_peek sock.rbuf (12 + s.length + b.length)
        = (frameBytes s b).take k := by
      rw [dime_ringbuffer_peek, hdata, List.take_take]
      have hmin : min (12 + s.length + b.length) k = k := by omega
      rw [hmin]
    have hbuflen : ((frameBytes s b).take k).length ≠ 12 + s.length + b.length := by
      rw [List.length_take, frameBytes_length]
      omega
    simp only [dime_socket_pop, hpeek12, frameHeader_length, frameHeader_take4, hjl, hbl,
      hbufpeek, hbuflen]
    simp

/-- Claim C7 (witness): a 5-byte strict prefix of the 16-byte frame for
`\x7b\x7d` and `"AB"`. -/
theorem pop_strict_prefix_incomplete_witness :
    (1 : Nat) ≤ 5 ∧ (5 : Nat) < 12 + 2 + 2 ∧
    dime_socket_pop emptyObjCodec
        { fd := 2, rbuf := { cap := 32, data := (frameBytes [123, 125] [65, 66]).take 5 },
          wbuf := { cap := 32, data := [] }, tls := false }
      = (0,
         { fd := 2, rbuf := { cap := 32, data := (frameBytes [123, 125] [65, 66]).take 5 },
           wbuf := { cap := 32, data := [] }, tls := false },
         none) :=
  ⟨by decide, by decide,
   pop_strict_prefix_incomplete emptyObjCodec
     { fd := 2, rbuf := { cap := 32, data := (frameBytes [123, 125] [65, 66]).take 5 },
       wbuf := { cap := 32, data := [] }, tls := false }
     [123, 125] [65, 66] 5 (by decide) (by decide) (by decide) (by decide) rfl⟩

/-- Claim C5: for every structured value `v` that the external codec
renders to `s` and parses back from `s` (the codec's own round-trip at its
interface boundary), and every binary blob `b` — both segments possibly
empty — serializing `(v, b)` into an outbound buffer with sufficient
capacity appends exactly the frame bytes and returns the serialized count
`12 + s.length + b.length`, and decoding an inbound buffer holding exactly
those bytes succeeds, yields `v` and `b` back, returns the same count and
consumes exactly that many bytes (emptying the buffer). -/
theorem push_pop_roundtrip {V : Type} (codec : JsonCodec V) (v : V) (s b : List Nat)
    (sender receiver : dime_socket_t)
    (hdumps : codec.dumps v = some s) (hload : codec.loadb s = some v)
    (hs : s.length < 2 ^ 32) (hb : b.length < 2 ^ 32)
    (hsend0 : sender.wbuf.data = [])
    (hcap : 12 + s.length + b.length ≤ sender.wbuf.cap)
    (hrecv : receiver.rbuf.data = frameBytes s b) :
    dime_socket_push codec sender v b
      = (Int.ofNat (12 + s.length + b.length),
         { sender with wbuf := { sender.wbuf with data := frameBytes s b } }) ∧
    dime_socket_pop codec receiver
      = (Int.ofNat (12 + s.length + b.length),
         { receiver with rbuf := { receiver.rbuf with data := [] } },
         some (v, b)) := by
  have hlen0 : dime_socket_sendlen sender = 0 := by
    simp [dime_socket_sendlen, dime_ringbuffer_len, hsend0]
  constructor
  · simp only [dime_socket_push, hdumps]
    rw [push_str_spec]
    rw [if_pos (by omega), if_pos (by omega), if_pos (by omega)]
    rw [hsend0]
    simp [frameBytes]
  · have hrlen : receiver.rbuf.data.length = 12 + s.length + b.length := by
      rw [hrecv, frameBytes_length]
    have hpeek12 : dime_ringbuffer_peek receiver.rbuf 12 = frameHeader s.length b.length := by
      rw [dime_ringbuffer_peek, hrecv, frameBytes_assoc,
        List.take_left' (frameHeader_length _ _)]
    have hjl : ntohl32 (((frameHeader s.length b.length).drop 4).take 4) = s.length := by
      rw [frameHeader_drop4_take4, Nat.mod_eq_of_lt hs]
      exact ntohl32_htonl32 _ hs
    have hbl : ntohl32 (((frameHeader s.length b.length).drop 8).take 4) = b.length := by
      rw [frameHeader_drop8_take4, Nat.mod_eq_of_lt hb]
      exact ntohl32_htonl32 _ hb
    have hbufpeek : dime_ringbuffer_peek receiver.rbuf (12 + s.length + b.length)
        = frameBytes s b := by
      rw [dime_ringbuffer_peek, hrecv, ← frameBytes_length s b, List.take_length]
    have hjson : ((frameBytes s b).drop 12).take s.length = s := by
      rw [frameBytes_assoc, List.drop_left' (frameHeader_length _ _),
        List.take_left' rfl]
    have hbin : ((frameBytes s b).drop (12 + s.length)).take b.length = b := by
      have hsplit : frameBytes s b = (frameHeader s.length b.length ++ s) ++ b := by
        rw [frameBytes]
      have hlen2 : (frameHeader s.length b.length ++ s).length = 12 + s.length := by
        rw [List.length_append, frameHeader_length]
      rw [hsplit, List.drop_left' hlen2, List.take_length]
    have hdiscard : dime_ringbuffer_discard receiver.rbuf (12 + s.length + b.length)
        = { receiver.rbuf with data := [] } := by
      rw [dime_ringbuffer_discard, hrecv, ← frameBytes_length s b, List.drop_length]
    simp [dime_socket_pop, hpeek12, frameHeader_length, frameHeader_take4, hjl, hbl,
      hbufpeek, hjson, hbin, hload, hdiscard, frameBytes_length]

/-- Claim C5 (witness): the empty JSON object with an empty binary blob —
both zero-length cases of the claim in one instance, rendered structured
segment of length 2. -/
theorem push_pop_roundtrip_witness :
    emptyObjCodec.dumps () = some [123, 125] ∧
    emptyObjCodec.loadb [123, 125] = some () ∧
    dime_socket_push emptyObjCodec (dime_socket_init 1 64 64) () []
      = (Int.ofNat (12 + 2 + 0),
         { dime_socket_init 1 64 64 with
             wbuf := { (dime_socket_init 1 64 64).wbuf with
                         data := frameBytes [123, 125] [] } }) ∧
    dime_socket_pop emptyObjCodec
        { fd := 2, rbuf := { cap := 64, data := frameBytes [123, 125] [] },
          wbuf := { cap := 64, data := [] }, tls := false }
      = (Int.ofNat (12 + 2 + 0),
         { fd := 2, rbuf := { cap := 64, data := [] },
           wbuf := { cap := 64, data := [] }, tls := false },
         some ((), [])) :=
  ⟨rfl, by decide,
   (push_pop_roundtrip emptyObjCodec () [123, 125] [] (dime_socket_init 1 64 64)
      { fd := 2, rbuf := { cap := 64, data := frameBytes [123, 125] [] },
        wbuf := { cap := 64, data := [] }, tls := false }
      rfl (by decide) (by decide) (by decide) rfl (by decide) rfl).1,
   (push_pop_roundtrip emptyObjCodec () [123, 125] [] (dime_socket_init 1 64 64)
      { fd := 2, rbuf := { cap := 64, data := frameBytes [123, 125] [] },
        wbuf := { cap := 64, data := [] }, tls := false }
      rfl (by decide) (by decide) (by decide) rfl (by decide) rfl).2⟩

/-- A single partial send whose transport reply is a nonnegative count `a`
returns `a` and discards exactly `a` bytes from the front of the outbound
buffer. -/
theorem sendpartial_accepts (sock : dime_socket_t) (a : Nat) :
    dime_socket_sendpartial sock (Int.ofNat a)
      = (Int.ofNat a, { sock with wbuf := dime_ringbuffer_discard sock.wbuf a }) := by
  have h : ¬(Int.ofNat a < 0) := by
    simp only [Int.ofNat_eq_coe]
    omega
  simp [ dime_socket_sendpartial, h, Int.ofNat_eq_coe]

/-- Across a `sendRun`, the bytes removed from the outbound buffer are
exactly the bytes the transport accepted: buffered bytes after the run plus
the total reported as sent equal the bytes buffered before. -/
theorem sendRun_conserves (frags : List Nat) :
    ∀ (sock : dime_socket_t) (total : Nat) (s2 : dime_socket_t),
      sendRun sock frags = some (total, s2) →
      dime_socket_sendlen s2 + total = dime_socket_sendlen sock := by
  induction frags with
  | nil =>
      intro sock total s2 h
      simp only [sendRun, Option.some.injEq, Prod.mk.injEq] at h
      obtain ⟨h1, h2⟩ := h
      subst h1
      subst h2
      rfl
  | cons a rest ih =>
      intro sock total s2 h
      simp only [sendRun] at h
      split_ifs at h with ha
      · rw [sendpartial_accepts] at h
        cases hrec : sendRun { sock with wbuf := dime_ringbuffer_discard sock.wbuf a } rest with
        | none => rw [hrec] at h; exact absurd h (by simp)
        | some p =>
            obtain ⟨t', s'⟩ := p
            rw [hrec] at h
            simp only [Option.some.injEq, Prod.mk.injEq] at h
            obtain ⟨h1, h2⟩ := h
            subst h2
            have hrest := ih _ _ _ hrec
            have hdisc : dime_socket_sendlen
                { sock with wbuf := dime_ringbuffer_discard sock.wbuf a }
                = dime_socket_sendlen sock - a := by
              simp [dime_socket_sendlen, dime_ringbuffer_len, dime_ringbuffer_discard,
                List.length_drop]
            have htn : (Int.ofNat a).toNat = a := by
              simp [Int.ofNat_eq_coe]
            rw [htn] at h1
            subst h1
            rw [hdisc] at hrest
            have hale : a ≤ dime_socket_sendlen sock := le_trans ha (min_le_left _ _)
            omega

/-- A push that returns a nonnegative count grows the outbound buffer by
exactly that count. -/
theorem push_nonneg_grows {V : Type} (codec : JsonCodec V) (sock : dime_socket_t)
    (v : V) (b : List Nat) (h : 0 ≤ ( dime_socket_push codec sock v b).1) :
    dime_socket_sendlen ( dime_socket_push codec sock v b).2
      = dime_socket_sendlen sock + ( dime_socket_push codec sock v b).1.toNat := by
  cases hd : codec.dumps v with
  | none =>
      simp only [dime_socket_push, hd] at h
      exact absurd h (by simp)
  | some s =>
      simp only [dime_socket_push, hd] at h ⊢
      rw [push_str_spec] at h ⊢
      split_ifs at h ⊢ with h1 h2 h3
      · simp [dime_socket_sendlen, dime_ringbuffer_len, List.length_append,
          frameHeader_length, Int.ofNat_eq_coe]
        omega
      · exact absurd h (by simp)
      · exact absurd h (by simp)
      · exact absurd h (by simp)

/-- Across a `pushRun` of successful pushes, the outbound buffer grows by
exactly the sum of the returned serialized sizes. -/
theorem pushRun_grows {V : Type} (codec : JsonCodec V) (msgs : List (V × List Nat)) :
    ∀ (sock : dime_socket_t) (total : Nat) (s1 : dime_socket_t),
      pushRun codec sock msgs = some (total, s1) →
      dime_socket_sendlen s1 = dime_socket_sendlen sock + total := by
  induction msgs with
  | nil =>
      intro sock total s1 h
      simp only [pushRun, Option.some.injEq, Prod.mk.injEq] at h
      obtain ⟨h1, h2⟩ := h
      subst h1
      subst h2
      rfl
  | cons m rest ih =>
      obtain ⟨v, b⟩ := m
      intro sock total s1 h
      simp only [pushRun] at h
      split_ifs at h with hneg
      push_neg at hneg
      cases hrec : pushRun codec ( dime_socket_push codec sock v b).2 rest with
      | none => rw [hrec] at h; exact absurd h (by simp)
      | some p =>
          obtain ⟨t', s'⟩ := p
          rw [hrec] at h
          simp only [Option.some.injEq, Prod.mk.injEq] at h
          obtain ⟨h1, h2⟩ := h
          subst h2
          subst h1
          have hgrow := push_nonneg_grows codec sock v b hneg
          have hrest := ih _ _ _ hrec
          omega

/-- Claim C6: starting from an empty outbound buffer, after any sequence of
successful enqueues (summing to `total` reported bytes) and any
fragmentation of transport accept sizes (each at most the count offered,
from one byte per call up to everything at once) that drains the buffer,
the byte counts returned by the successful partial sends sum to exactly
`total`; moreover every such partial-send call discards exactly the number
of bytes the transport accepted. -/
theorem sendpartial_conservation {V : Type} (codec : JsonCodec V)
    (sock0 sock1 sock2 : dime_socket_t) (msgs : List (V × List Nat))
    (frags : List Nat) (total sent : Nat)
    (h0 : dime_socket_sendlen sock0 = 0)
    (hpush : pushRun codec sock0 msgs = some (total, sock1))
    (hsend : sendRun sock1 frags = some (sent, sock2))
    (hempty : dime_socket_sendlen sock2 = 0) :
    sent = total ∧
    ∀ (s : dime_socket_t) (a : Nat),
      a ≤ min (dime_socket_sendlen s) SENDBUFLEN →
      dime_socket_sendpartial s (Int.ofNat a)
        = (Int.ofNat a, { s with wbuf := dime_ringbuffer_discard s.wbuf a }) := by
  constructor
  · have hgrow := pushRun_grows codec msgs sock0 total sock1 hpush
    have hcons := sendRun_conserves frags sock1 sent sock2 hsend
    omega
  · intro s a _
    exact sendpartial_accepts s a

/-- Claim C6 (witness): one enqueued 16-byte frame drained in two transport
fragments of 1 and 15 bytes. -/
theorem sendpartial_conservation_witness :
    dime_socket_sendlen (dime_socket_init 1 50 50) = 0 ∧
    pushRun emptyObjCodec (dime_socket_init 1 50 50) [((), [65, 66])]
      = some (16, { fd := 1, rbuf := { cap := 50, data := [] },
                    wbuf := { cap := 50,
                              data := [68, 105, 77, 69, 0, 0, 0, 2, 0, 0, 0, 2,
                                       123, 125, 65, 66] },
                    tls := false }) ∧
    sendRun { fd := 1, rbuf := { cap := 50, data := [] },
              wbuf := { cap := 50,
                        data := [68, 105, 77, 69, 0, 0, 0, 2, 0, 0, 0, 2,
                                 123, 125, 65, 66] },
              tls := false } [1, 15]
      = some (16, { fd := 1, rbuf := { cap := 50, data := [] },
                    wbuf := { cap := 50, data := [] }, tls := false }) ∧
    (16 : Nat) = 16 :=
  ⟨by decide, by decide, by decide,
   (sendpartial_conservation emptyObjCodec (dime_socket_init 1 50 50)
      { fd := 1, rbuf := { cap := 50, data := [] },
        wbuf := { cap := 50,
                  data := [68, 105, 77, 69, 0, 0, 0, 2, 0, 0, 0, 2,
                           123, 125, 65, 66] },
        tls := false }
      { fd := 1, rbuf := { cap := 50, data := [] },
        wbuf := { cap := 50, data := [] }, tls := false }
      [((), [65, 66])] [1, 15] 16 16
      (by decide) (by decide) (by decide) (by decide)).1⟩

end Dime2
